import Mathlib

/-!
Verification of the navigation click-handler snippet (`basic.js`) and of the
executable snippets of the style guide (`once`, `format`, `util`).

The DOM fragment relevant to the snippet is modelled shallowly: an anchor is a
node identity (`id`) together with its text content; the document state keeps
the list of anchors matched by the selector `"nav a"`.  Registered listeners,
the effects a handler emits (`preventDefault`, `alert`, DOM writes, listener
registration, navigation) and the event dispatch are made explicit, so that
properties about listener counts, navigation and handler purity can be stated.
-/

namespace Basic

/-- Model of an anchor element: a node identity plus its text content. -/
structure Anchor where
  id : Nat
  textContent : String
deriving DecidableEq, Repr

/-- Model of the document: the anchors currently under the navigation
container, in document order (the elements the selector "nav a" matches). -/
structure Dom where
  navAnchors : List Anchor
deriving DecidableEq, Repr

/-- Observable effects a piece of code can perform in this model.  The click
handler of the snippet only ever emits `preventDefault` and `alert`; the other
constructors exist so that their absence is a meaningful statement. -/
inductive Effect where
  | preventDefault
  | alert (msg : String)
  | domWrite (targetId : Nat) (content : String)
  | addListener (targetId : Nat)
  | navigate
deriving DecidableEq, Repr

/-- Test for the `preventDefault` effect. -/
def isPreventDefault : Effect → Bool
  | Effect.preventDefault => true
  | _ => false

/-- Test for the two effects the snippet's handler is allowed to emit:
`preventDefault` and `alert`.  DOM writes, listener registration and
navigation are not of this shape. -/
def isHandlerEffect : Effect → Bool
  | Effect.preventDefault => true
  | Effect.alert _ => true
  | _ => false

/-- Extract the messages of the `alert` effects of a trace, in order. -/
def alertMessages (effs : List Effect) : List String :=
  effs.filterMap (fun e =>
    match e with
    | Effect.alert m => some m
    | _ => none)

/-- A registered click listener: the element it is attached to and the anchor
the handler closure captured (in the snippet both are the same `link`). -/
structure Listener where
  target : Nat
  link : Anchor
deriving DecidableEq, Repr

/-- Model of `document.querySelectorAll("nav a")`: the static snapshot of the
anchors under the navigation container at the moment of the call. -/
def querySelectorAllNavA (dom : Dom) : List Anchor :=
  dom.navAnchors

/-- Effects of one run of the click handler closed over `link`:
`e.preventDefault()` followed by
`alert(`You clicked on ${link.textContent}`)`. -/
def handlerEffects (link : Anchor) : List Effect :=
  [Effect.preventDefault, Effect.alert ("You clicked on " ++ link.textContent)]

/-- Model of the setup code: `navLinks.forEach(link =>
link.addEventListener("click", handler))` registers, for each matched anchor,
one click listener whose handler captured that anchor. -/
def setup (dom : Dom) : List Listener :=
  (querySelectorAllNavA dom).map (fun link => { target := link.id, link := link })

/-- The listeners that fire when a click event is dispatched to the element
with identity `targetId`. -/
def firedListeners (ls : List Listener) (targetId : Nat) : List Listener :=
  ls.filter (fun l => l.target == targetId)

/-- The effect trace produced by dispatching a click to `targetId`: every
fired listener runs its handler, in registration order. -/
def clickEffects (ls : List Listener) (targetId : Nat) : List Effect :=
  (firedListeners ls targetId).flatMap (fun l => handlerEffects l.link)

/-- The page state after setup: the registered listeners, the live document
and whether the browser has navigated away. -/
structure PageState where
  listeners : List Listener
  dom : Dom
  navigated : Bool
deriving DecidableEq, Repr

/-- The state right after the setup code ran on document `dom`. -/
def initialState (dom : Dom) : PageState :=
  { listeners := setup dom, dom := dom, navigated := false }

/-- Environment steps after setup: a click dispatched to some element, or a
new anchor appended to the navigation container. -/
inductive Step where
  | click (targetId : Nat)
  | addAnchor (a : Anchor)
deriving DecidableEq, Repr

/-- The effect trace one step emits. -/
def stepEffects (s : PageState) : Step → List Effect
  | Step.click t => clickEffects s.listeners t
  | Step.addAnchor _ => []

/-- The state transition of one step.  A click navigates away exactly when no
fired handler called `preventDefault` (the browser default action on an
anchor); adding an anchor only grows the document. -/
def stepState (s : PageState) : Step → PageState
  | Step.click t =>
      let effs := clickEffects s.listeners t
      { s with navigated := s.navigated || !(effs.any isPreventDefault) }
  | Step.addAnchor a =>
      { s with dom := { navAnchors := s.dom.navAnchors ++ [a] } }

/-- Run a sequence of steps from a state. -/
def run (s : PageState) : List Step → PageState
  | [] => s
  | st :: sts => run (stepState s st) sts

/-- The targets of the click steps of a step sequence. -/
def clickTargets : List Step → List Nat
  | [] => []
  | Step.click t :: ss => t :: clickTargets ss
  | Step.addAnchor _ :: ss => clickTargets ss

end Basic

namespace StyleGuide

/-- One call made to a JavaScript function: its `this` binding and its
argument list. -/
structure Call (α β : Type) where
  thisArg : α
  args : List β
deriving DecidableEq, Repr

/-- One invocation of the wrapper returned by `once(fn)`.  The wrapper's
captured state is the boolean `ran`; the result is the updated state together
with the calls forwarded to `fn` by this invocation (`fn.apply(this,
arguments)` when `ran` was still false, nothing otherwise). -/
def onceCall (ran : Bool) (c : Call α β) : Bool × List (Call α β) :=
  if ran then (ran, [])
  else (true, [c])

/-- Run a sequence of invocations of the wrapper returned by `once(fn)`,
threading the captured `ran` flag and collecting every call forwarded to
`fn`. -/
def onceRun (ran : Bool) : List (Call α β) → Bool × List (Call α β)
  | [] => (ran, [])
  | c :: cs =>
      let r1 := onceCall ran c
      let r2 := onceRun r1.1 cs
      (r2.1, r1.2 ++ r2.2)

/-- JavaScript strings, modelled as character lists. -/
abbrev JStr := List Char

/-- The dollar character, special in JavaScript replacement strings. -/
def dollar : Char := '$'

/-- The ampersand character. -/
def amp : Char := '&'

/-- The backquote character. -/
def backquote : Char := Char.ofNat 96

/-- The single-quote character. -/
def squote : Char := Char.ofNat 39

/-- First occurrence of `pat` inside a string: `findSub pat s = some (pre,
suf)` splits `s` as `pre ++ pat ++ suf` at the leftmost match, and is `none`
when `pat` does not occur. -/
def findSub (pat : JStr) : JStr → Option (JStr × JStr)
  | [] => if pat.isPrefixOf ([] : JStr) then some ([], []) else none
  | c :: cs =>
      if pat.isPrefixOf (c :: cs) then some ([], List.drop pat.length (c :: cs))
      else (findSub pat cs).map (fun pr => (c :: pr.1, pr.2))

/-- ECMAScript `GetSubstitution` for a string-valued search (no capture
groups): inside the replacement string, `$$` yields `$`, `$&` yields the
matched substring, a dollar followed by a backquote yields the part before
the match, a dollar followed by a quote yields the part after the match, and
any other character is copied verbatim. -/
def getSubstitution (matched pre suf : JStr) : JStr → JStr
  | [] => []
  | c :: rest =>
      if c = dollar then
        match rest with
        | [] => [dollar]
        | d :: rest2 =>
            if d = dollar then dollar :: getSubstitution matched pre suf rest2
            else if d = amp then matched ++ getSubstitution matched pre suf rest2
            else if d = backquote then pre ++ getSubstitution matched pre suf rest2
            else if d = squote then suf ++ getSubstitution matched pre suf rest2
            else dollar :: d :: getSubstitution matched pre suf rest2
      else c :: getSubstitution matched pre suf rest

/-- JavaScript `text.replace(pat, repl)` with string arguments: replaces the
first occurrence of `pat`, interpreting dollar patterns in `repl` via
`getSubstitution`; returns `text` unchanged when `pat` does not occur. -/
def jsReplace (text pat repl : JStr) : JStr :=
  match findSub pat text with
  | none => text
  | some pr => pr.1 ++ getSubstitution pat pr.1 pr.2 repl ++ pr.2

/-- The literal `'%s'` pattern of the `format` snippet. -/
def pcts : JStr := ['%', 's']

/-- The `replacer` inner function of the `format` snippet:
`text.replace('%s', replacement)`. -/
def replacer (text replacement : JStr) : JStr :=
  jsReplace text pcts replacement

/-- The `format` snippet: shift the first argument off, then fold `replacer`
over the remaining arguments (`args.reduce(replacer, initial)`).  With no
arguments at all the initial value is `undefined`, modelled as `none`. -/
def format : List JStr → Option JStr
  | [] => none
  | initial :: rest => some (rest.foldl replacer initial)

/-- Modelled from the claim's words, for comparison with `format`: replace
the first remaining occurrence of `'%s'` with the argument inserted verbatim
(no dollar-pattern interpretation), dropping arguments with no match left. -/
def replaceFirstLiteral (text arg : JStr) : JStr :=
  match findSub pcts text with
  | none => text
  | some pr => pr.1 ++ arg ++ pr.2

/-- The fold of the verbatim replacement, mirroring `format`'s shape. -/
def formatLiteral : List JStr → Option JStr
  | [] => none
  | initial :: rest => some (rest.foldl replaceFirstLiteral initial)

/-- The `options` object consumed by the `util` factory: its `start` field is
either absent (`none`, i.e. `undefined`) or an integer-valued number; a
non-integer start such as 0.5 is outside this model. -/
structure Options where
  start : Option Int
deriving DecidableEq, Repr

/-- JavaScript truthiness of an optional number: `undefined` and `0` are
falsy, every other number is truthy. -/
def truthy : Option Int → Bool
  | none => false
  | some v => v != 0

/-- JavaScript `x || y` on an optional number: `x` when truthy, else `y`. -/
def jsOr (x : Option Int) (y : Int) : Int :=
  match x with
  | none => y
  | some v => if v != 0 then v else y

/-- Fuel-bounded floor of the binary logarithm: halve until the argument is
at most 1, counting the steps.  Fuel `n` suffices for input `n`, since the
logarithm of `n` is below `n`.  Structural recursion keeps it computable by
the kernel. -/
def log2fuel : Nat → Nat → Nat
  | 0, _ => 0
  | fuel + 1, n => if n ≤ 1 then 0 else log2fuel fuel (n / 2) + 1

/-- Floor of the binary logarithm of a natural number. -/
def floorLog2 (n : Nat) : Nat :=
  log2fuel n n

/-- Distance between consecutive IEEE-754 binary64 values at integer
magnitude `n`: 1 up to 2^53 (every such integer is representable), and
2^(e-52) in the binade [2^e, 2^(e+1)) above. -/
def ulpAt (n : Nat) : Nat :=
  if n ≤ 2 ^ 53 then 1 else 2 ^ (floorLog2 n - 52)

/-- Round a natural number to the nearest IEEE-754 binary64 value
(round-to-nearest, ties to even mantissa): the nearest multiple of the unit
in the last place, with a halfway case going to the even quotient. -/
def roundDoubleNat (n : Nat) : Nat :=
  if 2 * (n % ulpAt n) < ulpAt n then n / ulpAt n * ulpAt n
  else if ulpAt n < 2 * (n % ulpAt n) then (n / ulpAt n + 1) * ulpAt n
  else if n / ulpAt n % 2 = 0 then n / ulpAt n * ulpAt n
  else (n / ulpAt n + 1) * ulpAt n

/-- Round an integer to the nearest IEEE-754 binary64 value; the format is
symmetric, so a negative value rounds via its magnitude. -/
def roundDouble (v : Int) : Int :=
  if 0 ≤ v then (roundDoubleNat v.toNat : Int)
  else -(roundDoubleNat (-v).toNat : Int)

/-- JavaScript `v + 1` on an integer-valued number: the exact sum rounded to
the nearest double.  Beyond the safe integer range this is not `v + 1`: at
`v = 2^53` the tie `2^53 + 1` rounds back to `2^53`, and at `v = 2^53 + 2`
it rounds up to `2^53 + 4`. -/
def jsAdd1 (v : Int) : Int :=
  roundDouble (v + 1)

/-- The private state of the object built by the `util` factory: the counter
variable `foo`, a JavaScript number.  The model covers the integer-valued
doubles, as `Int` values, with the rounding of arithmetic made explicit in
`jsAdd1`; non-integer starts such as 0.5 are outside the model. -/
structure UtilState where
  foo : Int
deriving DecidableEq, Repr

/-- The private `reset` method: `foo = options.start || 0`. -/
def reset (o : Options) : UtilState :=
  { foo := jsOr o.start 0 }

/-- The `util` factory: runs `reset()` once and returns the object whose
`uuid` method is `add`. -/
def util (o : Options) : UtilState :=
  reset o

/-- The `add` method (exposed as `uuid`): `return foo++` returns the current
counter and stores `foo + 1` computed in double arithmetic. -/
def uuid (s : UtilState) : Int × UtilState :=
  (s.foo, { foo := jsAdd1 s.foo })

/-- Perform `n` successive `uuid` calls, collecting the returned values. -/
def uuidRun (s : UtilState) : Nat → List Int × UtilState
  | 0 => ([], s)
  | n + 1 =>
      let r1 := uuid s
      let r2 := uuidRun r1.2 n
      (r1.1 :: r2.1, r2.2)

end StyleGuide

namespace Basic

theorem firedListeners_setup (anchors : List Anchor) (t : Nat) :
    firedListeners (anchors.map (fun link => { target := link.id, link := link })) t
      = (anchors.filter (fun a => a.id == t)).map
          (fun a => { target := a.id, link := a }) := by
  rw [firedListeners, List.filter_map]
  rfl

theorem filter_id_eq_nil (anchors : List Anchor) (t : Nat)
    (h : t ∉ anchors.map Anchor.id) :
    anchors.filter (fun a => a.id == t) = [] := by
  induction anchors with
  | nil => rfl
  | cons b l ih =>
      rw [List.map_cons, List.mem_cons] at h
      push_neg at h
      have hb : (b.id == t) = false := by
        simp only [beq_eq_false_iff_ne, ne_eq]
        exact fun he => h.1 he.symm
      rw [List.filter_cons, hb]
      simpa using ih h.2

theorem filter_id_eq_singleton (anchors : List Anchor) (a : Anchor)
    (hnd : (anchors.map Anchor.id).Nodup) (ha : a ∈ anchors) :
    anchors.filter (fun b => b.id == a.id) = [a] := by
  induction anchors with
  | nil => cases ha
  | cons b l ih =>
      rw [List.map_cons, List.nodup_cons] at hnd
      rcases List.mem_cons.mp ha with h | h
      · subst h
        have h0 : l.filter (fun c => c.id == a.id) = [] :=
          filter_id_eq_nil l a.id hnd.1
        simp [List.filter_cons, h0]
      · have hne : (b.id == a.id) = false := by
          simp only [beq_eq_false_iff_ne, ne_eq]
          intro he
          exact hnd.1 (by rw [he]; exact List.mem_map_of_mem Anchor.id h)
        rw [List.filter_cons, hne]
        simpa using ih hnd.2 h

theorem firedListeners_setup_mem (dom : Dom) (a : Anchor)
    (hnd : (dom.navAnchors.map Anchor.id).Nodup) (ha : a ∈ dom.navAnchors) :
    firedListeners (setup dom) a.id = [{ target := a.id, link := a }] := by
  rw [setup, querySelectorAllNavA, firedListeners_setup,
    filter_id_eq_singleton dom.navAnchors a hnd ha]
  rfl

theorem firedListeners_setup_not_mem (dom : Dom) (t : Nat)
    (h : t ∉ dom.navAnchors.map Anchor.id) :
    firedListeners (setup dom) t = [] := by
  rw [setup, querySelectorAllNavA, firedListeners_setup,
    filter_id_eq_nil dom.navAnchors t h]
  rfl

theorem clickEffects_setup_mem (dom : Dom) (a : Anchor)
    (hnd : (dom.navAnchors.map Anchor.id).Nodup) (ha : a ∈ dom.navAnchors) :
    clickEffects (setup dom) a.id = handlerEffects a := by
  rw [clickEffects, firedListeners_setup_mem dom a hnd ha]
  rfl

theorem setup_targets (dom : Dom) :
    (setup dom).map Listener.target = dom.navAnchors.map Anchor.id := by
  rw [setup, querySelectorAllNavA, List.map_map]
  rfl

theorem run_listeners (steps : List Step) (s : PageState) :
    (run s steps).listeners = s.listeners := by
  induction steps generalizing s with
  | nil => rfl
  | cons st sts ih =>
      rw [run, ih]
      cases st <;> rfl

theorem clickEffects_prevent (dom : Dom) (t : Nat)
    (ht : t ∈ dom.navAnchors.map Anchor.id) :
    (clickEffects (setup dom) t).any isPreventDefault = true := by
  rcases List.mem_map.mp ht with ⟨a, ha, rfl⟩
  have hmem : Effect.preventDefault ∈ clickEffects (setup dom) a.id := by
    rw [clickEffects]
    apply List.mem_flatMap.mpr
    refine ⟨{ target := a.id, link := a }, ?_, ?_⟩
    · rw [firedListeners]
      apply List.mem_filter.mpr
      refine ⟨?_, by simp⟩
      rw [setup, querySelectorAllNavA]
      exact List.mem_map_of_mem _ ha
    · rw [handlerEffects]
      exact List.mem_cons_self _ _
  rw [List.any_eq_true]
  exact ⟨Effect.preventDefault, hmem, rfl⟩

theorem run_navigated_false (dom : Dom) (steps : List Step) (s : PageState)
    (hl : s.listeners = setup dom) (hn : s.navigated = false)
    (hsteps : ∀ t ∈ clickTargets steps, t ∈ dom.navAnchors.map Anchor.id) :
    (run s steps).navigated = false := by
  induction steps generalizing s with
  | nil => exact hn
  | cons st sts ih =>
      rw [run]
      cases st with
      | click t =>
          have hmem : t ∈ dom.navAnchors.map Anchor.id := by
            apply hsteps t
            rw [clickTargets]
            exact List.mem_cons_self _ _
          apply ih (stepState s (Step.click t))
          · exact hl
          · rw [stepState]
            simp only []
            rw [hl, hn, clickEffects_prevent dom t hmem]
            rfl
          · intro t2 ht2
            apply hsteps t2
            rw [clickTargets]
            exact List.mem_cons_of_mem _ ht2
      | addAnchor a =>
          apply ih (stepState s (Step.addAnchor a))
          · exact hl
          · exact hn
          · intro t2 ht2
            apply hsteps t2
            rw [clickTargets]
            exact ht2

theorem click_effects_shape (s : PageState) (t : Nat) :
    ∀ e ∈ stepEffects s (Step.click t),
      e = Effect.preventDefault ∨ ∃ m, e = Effect.alert m := by
  intro e he
  rw [stepEffects, clickEffects] at he
  rcases List.mem_flatMap.mp he with ⟨l, _, hel⟩
  rw [handlerEffects] at hel
  rcases List.mem_cons.mp hel with h | h
  · exact Or.inl h
  · rcases List.mem_cons.mp h with h2 | h2
    · exact Or.inr ⟨_, h2⟩
    · cases h2

end Basic

namespace StyleGuide

theorem onceRun_ran (cs : List (Call α β)) : onceRun true cs = (true, []) := by
  induction cs with
  | nil => rfl
  | cons c cs ih =>
      rw [onceRun]
      simp [onceCall, ih]

theorem getSubstitution_no_dollar (matched pre suf repl : JStr)
    (h : dollar ∉ repl) : getSubstitution matched pre suf repl = repl := by
  induction repl with
  | nil => rfl
  | cons c rest ih =>
      have hc : ¬c = dollar := fun he => h (by rw [he]; exact List.mem_cons_self _ _)
      have hrest := ih (fun hm => h (List.mem_cons_of_mem _ hm))
      cases rest with
      | nil => simp [getSubstitution, hc]
      | cons d rest2 =>
          simp only [getSubstitution, if_neg hc]
          rw [hrest]

theorem replacer_no_dollar (text a : JStr) (h : dollar ∉ a) :
    replacer text a = replaceFirstLiteral text a := by
  rw [replacer, jsReplace, replaceFirstLiteral]
  cases hf : findSub pcts text with
  | none => rfl
  | some pr => simp [getSubstitution_no_dollar pcts pr.1 pr.2 a h]

theorem foldl_replacer_no_dollar (args : List JStr) (initial : JStr)
    (h : ∀ a ∈ args, dollar ∉ a) :
    args.foldl replacer initial = args.foldl replaceFirstLiteral initial := by
  induction args generalizing initial with
  | nil => rfl
  | cons a args ih =>
      rw [List.foldl_cons, List.foldl_cons,
        replacer_no_dollar initial a (h a (List.mem_cons_self _ _)),
        ih _ (fun b hb => h b (List.mem_cons_of_mem _ hb))]

theorem roundDoubleNat_small (n : Nat) (h : n ≤ 9007199254740992) :
    roundDoubleNat n = n := by
  have hpow : (2 : Nat) ^ 53 = 9007199254740992 := by norm_num
  have h53 : n ≤ 2 ^ 53 := by omega
  rw [roundDoubleNat, ulpAt, if_pos h53]
  simp
  intro h0
  exact absurd (Nat.mod_one n) h0

theorem roundDouble_small (v : Int) (h1 : -9007199254740992 ≤ v)
    (h2 : v ≤ 9007199254740992) : roundDouble v = v := by
  rw [roundDouble]
  by_cases h : 0 ≤ v
  · rw [if_pos h, roundDoubleNat_small v.toNat (by omega),
      Int.toNat_of_nonneg h]
  · rw [if_neg h, roundDoubleNat_small (-v).toNat (by omega)]
    omega

theorem jsAdd1_exact (v : Int) (h1 : -9007199254740992 ≤ v + 1)
    (h2 : v + 1 ≤ 9007199254740992) : jsAdd1 v = v + 1 := by
  rw [jsAdd1]
  exact roundDouble_small (v + 1) h1 h2

theorem uuidRun_outputs_safe (n : Nat) (f : Int)
    (hlo : -9007199254740992 ≤ f) (hhi : f + n ≤ 9007199254740992) :
    (uuidRun { foo := f } n).1
      = (List.range n).map (fun k : Nat => f + (k : Int)) := by
  induction n generalizing f with
  | zero => rfl
  | succ n ih =>
      have hstep : jsAdd1 f = f + 1 := by
        push_cast at hhi
        apply jsAdd1_exact f (by omega) (by omega)
      rw [uuidRun, List.range_succ_eq_map, List.map_cons, List.map_map]
      simp only [uuid, hstep]
      congr 1
      · simp
      · rw [ih (f + 1) (by omega) (by push_cast at hhi ⊢; omega)]
        apply List.map_congr_left
        intro k _
        simp only [Function.comp_apply]
        push_cast
        ring

theorem uuidRun_head (n : Nat) (f : Int) :
    (uuidRun { foo := f } (n + 1)).1.head? = some f := rfl

theorem uuidRun_chain_safe (n : Nat) (f : Int)
    (hlo : -9007199254740992 ≤ f) (hhi : f + n ≤ 9007199254740992) :
    List.Chain' (fun x y => y = x + 1) (uuidRun { foo := f } n).1 := by
  induction n generalizing f with
  | zero => exact List.chain'_nil
  | succ n ih =>
      have hstep : jsAdd1 f = f + 1 := by
        push_cast at hhi
        apply jsAdd1_exact f (by omega) (by omega)
      rw [uuidRun]
      simp only [uuid, hstep]
      apply List.chain'_cons'.mpr
      refine ⟨?_, ih (f + 1) (by omega) (by push_cast at hhi ⊢; omega)⟩
      intro b hb
      cases n with
      | zero => cases hb
      | succ m =>
          simp only [uuidRun_head] at hb
          cases hb
          rfl

end StyleGuide

/-- Claim C1: for every anchor element matched under the navigation container,
clicking that anchor displays an alert whose message is exactly the string
"You clicked on " followed by that anchor's text content. -/
theorem click_shows_alert_with_anchor_text (dom : Basic.Dom) (a : Basic.Anchor)
    (hnd : (dom.navAnchors.map Basic.Anchor.id).Nodup)
    (ha : a ∈ dom.navAnchors) :
    Basic.alertMessages (Basic.clickEffects (Basic.setup dom) a.id)
      = ["You clicked on " ++ a.textContent] := by
  rw [Basic.clickEffects_setup_mem dom a hnd ha]
  rfl

/-- Witness for C1 at a concrete document whose first anchor reads "Home":
the alert message is exactly "You clicked on Home". -/
theorem click_shows_alert_with_anchor_text_witness :
    Basic.alertMessages
        (Basic.clickEffects
          (Basic.setup
            { navAnchors := [{ id := 0, textContent := "Home" },
                             { id := 1, textContent := "About" }] }) 0)
      = ["You clicked on Home"] := by
  exact click_shows_alert_with_anchor_text
    { navAnchors := [{ id := 0, textContent := "Home" },
                     { id := 1, textContent := "About" }] }
    { id := 0, textContent := "Home" } (by decide) (by decide)

/-- Claim C2: running the setup on a container holding N anchors registers
exactly N click listeners in total, and exactly one listener fires on each
matched anchor. -/
theorem setup_registers_one_listener_per_anchor (dom : Basic.Dom)
    (a : Basic.Anchor)
    (hnd : (dom.navAnchors.map Basic.Anchor.id).Nodup)
    (ha : a ∈ dom.navAnchors) :
    (Basic.setup dom).length = dom.navAnchors.length ∧
    (Basic.firedListeners (Basic.setup dom) a.id).length = 1 := by
  constructor
  · rw [Basic.setup, Basic.querySelectorAllNavA, List.length_map]
  · rw [Basic.firedListeners_setup_mem dom a hnd ha]
    rfl

/-- Witness for C2 on a two-anchor document. -/
theorem setup_registers_one_listener_per_anchor_witness :
    (Basic.setup { navAnchors := [{ id := 0, textContent := "Home" },
                                  { id := 1, textContent := "Blog" }] }).length
      = (Basic.Dom.navAnchors
          { navAnchors := [{ id := 0, textContent := "Home" },
                           { id := 1, textContent := "Blog" }] }).length ∧
    (Basic.firedListeners
        (Basic.setup { navAnchors := [{ id := 0, textContent := "Home" },
                                      { id := 1, textContent := "Blog" }] })
        1).length = 1 := by
  exact setup_registers_one_listener_per_anchor
    { navAnchors := [{ id := 0, textContent := "Home" },
                     { id := 1, textContent := "Blog" }] }
    { id := 1, textContent := "Blog" } (by decide) (by decide)

/-- Claim C3: after setup, no sequence of steps whose clicks all target
anchors matched at setup time ever navigates away, and the handler emits
preventDefault before any other effect. -/
theorem clicks_on_matched_anchors_never_navigate (dom : Basic.Dom)
    (steps : List Basic.Step) (link : Basic.Anchor)
    (hsteps : ∀ t ∈ Basic.clickTargets steps,
      t ∈ dom.navAnchors.map Basic.Anchor.id) :
    (Basic.run (Basic.initialState dom) steps).navigated = false ∧
    (Basic.handlerEffects link).head? = some Basic.Effect.preventDefault := by
  constructor
  · exact Basic.run_navigated_false dom steps _ rfl rfl hsteps
  · rfl

/-- Witness for C3: two anchors, a click on each, an anchor added in
between, and no navigation at the end. -/
theorem clicks_on_matched_anchors_never_navigate_witness :
    (Basic.run
        (Basic.initialState
          { navAnchors := [{ id := 0, textContent := "Home" },
                           { id := 1, textContent := "About" }] })
        [Basic.Step.click 0, Basic.Step.addAnchor { id := 2, textContent := "New" },
         Basic.Step.click 1, Basic.Step.click 0]).navigated = false ∧
    (Basic.handlerEffects { id := 0, textContent := "Home" }).head?
      = some Basic.Effect.preventDefault := by
  exact clicks_on_matched_anchors_never_navigate
    { navAnchors := [{ id := 0, textContent := "Home" },
                     { id := 1, textContent := "About" }] }
    [Basic.Step.click 0, Basic.Step.addAnchor { id := 2, textContent := "New" },
     Basic.Step.click 1, Basic.Step.click 0]
    { id := 0, textContent := "Home" } (by decide)

/-- Claim C4: the listener set is fixed at setup time and invariant under
every step; an anchor without a listener (in particular one added after
setup, being a fresh node) fires no listener of this program when clicked. -/
theorem listener_set_fixed_at_setup (dom : Basic.Dom)
    (steps : List Basic.Step) (a : Basic.Anchor)
    (h : a.id ∉ (Basic.setup dom).map Basic.Listener.target) :
    (Basic.run (Basic.initialState dom) steps).listeners = Basic.setup dom ∧
    Basic.firedListeners
        (Basic.run (Basic.initialState dom) steps).listeners a.id = [] ∧
    Basic.stepEffects (Basic.run (Basic.initialState dom) steps)
        (Basic.Step.click a.id) = [] := by
  have hl : (Basic.run (Basic.initialState dom) steps).listeners
      = Basic.setup dom :=
    Basic.run_listeners steps (Basic.initialState dom)
  have hid : a.id ∉ dom.navAnchors.map Basic.Anchor.id := by
    rw [← Basic.setup_targets]
    exact h
  have hf : Basic.firedListeners (Basic.setup dom) a.id = [] :=
    Basic.firedListeners_setup_not_mem dom a.id hid
  refine ⟨hl, ?_, ?_⟩
  · rw [hl, hf]
  · rw [Basic.stepEffects, Basic.clickEffects, hl, hf]
    rfl

/-- Witness for C4: an anchor with identity 2 is added after setup; its
identity carries no listener, so clicking it fires nothing. -/
theorem listener_set_fixed_at_setup_witness :
    (Basic.run
        (Basic.initialState
          { navAnchors := [{ id := 0, textContent := "Home" },
                           { id := 1, textContent := "About" }] })
        [Basic.Step.addAnchor { id := 2, textContent := "New" }]).listeners
      = Basic.setup
          { navAnchors := [{ id := 0, textContent := "Home" },
                           { id := 1, textContent := "About" }] } ∧
    Basic.firedListeners
        (Basic.run
          (Basic.initialState
            { navAnchors := [{ id := 0, textContent := "Home" },
                             { id := 1, textContent := "About" }] })
          [Basic.Step.addAnchor { id := 2, textContent := "New" }]).listeners
        (Basic.Anchor.id { id := 2, textContent := "New" }) = [] ∧
    Basic.stepEffects
        (Basic.run
          (Basic.initialState
            { navAnchors := [{ id := 0, textContent := "Home" },
                             { id := 1, textContent := "About" }] })
          [Basic.Step.addAnchor { id := 2, textContent := "New" }])
        (Basic.Step.click (Basic.Anchor.id { id := 2, textContent := "New" }))
      = [] := by
  exact listener_set_fixed_at_setup
    { navAnchors := [{ id := 0, textContent := "Home" },
                     { id := 1, textContent := "About" }] }
    [Basic.Step.addAnchor { id := 2, textContent := "New" }]
    { id := 2, textContent := "New" } (by decide)

/-- Claim C5: when the selector "nav a" matches zero elements, setup
completes normally and attaches zero listeners. -/
theorem empty_selection_attaches_no_listeners (dom : Basic.Dom)
    (h : Basic.querySelectorAllNavA dom = []) :
    Basic.setup dom = [] ∧ (Basic.setup dom).length = 0 := by
  rw [Basic.setup, h]
  exact ⟨rfl, rfl⟩

/-- Witness for C5 at the empty document. -/
theorem empty_selection_attaches_no_listeners_witness :
    Basic.setup { navAnchors := [] } = [] ∧
    (Basic.setup { navAnchors := [] }).length = 0 := by
  exact empty_selection_attaches_no_listeners { navAnchors := [] } rfl

/-- Claim C6: a click handler run changes neither the document nor the
listener set, emits only preventDefault and alert effects (no DOM writes, no
listener registration, no navigation effect), and persists nothing between
clicks: a repeated click produces the same effects. -/
theorem click_handler_has_no_side_state (s : Basic.PageState) (t : Nat) :
    (Basic.stepState s (Basic.Step.click t)).dom = s.dom ∧
    (Basic.stepState s (Basic.Step.click t)).listeners = s.listeners ∧
    (Basic.stepEffects s (Basic.Step.click t)).all Basic.isHandlerEffect
      = true ∧
    Basic.stepEffects (Basic.stepState s (Basic.Step.click t))
        (Basic.Step.click t)
      = Basic.stepEffects s (Basic.Step.click t) := by
  refine ⟨rfl, rfl, ?_, rfl⟩
  rw [List.all_eq_true]
  intro e he
  rcases Basic.click_effects_shape s t e he with h | ⟨m, h⟩ <;> rw [h] <;> rfl

/-- Claim C7: the handler output is determined by the clicked anchor's text
content alone: clicking anchors with equal text, in the same or in equal
document states, produces equal effect traces and equal alert messages. -/
theorem click_output_determined_by_text (dom1 dom2 : Basic.Dom)
    (a1 a2 : Basic.Anchor)
    (hnd1 : (dom1.navAnchors.map Basic.Anchor.id).Nodup)
    (hnd2 : (dom2.navAnchors.map Basic.Anchor.id).Nodup)
    (ha1 : a1 ∈ dom1.navAnchors) (ha2 : a2 ∈ dom2.navAnchors)
    (ht : a1.textContent = a2.textContent) :
    Basic.clickEffects (Basic.setup dom1) a1.id
      = Basic.clickEffects (Basic.setup dom2) a2.id ∧
    Basic.alertMessages (Basic.clickEffects (Basic.setup dom1) a1.id)
      = Basic.alertMessages (Basic.clickEffects (Basic.setup dom2) a2.id) := by
  have he : Basic.clickEffects (Basic.setup dom1) a1.id
      = Basic.clickEffects (Basic.setup dom2) a2.id := by
    rw [Basic.clickEffects_setup_mem dom1 a1 hnd1 ha1,
      Basic.clickEffects_setup_mem dom2 a2 hnd2 ha2,
      Basic.handlerEffects, Basic.handlerEffects, ht]
  exact ⟨he, by rw [he]⟩

/-- Witness for C7: two different documents, two anchors with different
identities but the same text "Home", and equal click outputs. -/
theorem click_output_determined_by_text_witness :
    Basic.clickEffects
        (Basic.setup { navAnchors := [{ id := 0, textContent := "Home" }] })
        (Basic.Anchor.id { id := 0, textContent := "Home" })
      = Basic.clickEffects
          (Basic.setup { navAnchors := [{ id := 5, textContent := "Blog" },
                                        { id := 7, textContent := "Home" }] })
          (Basic.Anchor.id { id := 7, textContent := "Home" }) ∧
    Basic.alertMessages
        (Basic.clickEffects
          (Basic.setup { navAnchors := [{ id := 0, textContent := "Home" }] })
          (Basic.Anchor.id { id := 0, textContent := "Home" }))
      = Basic.alertMessages
          (Basic.clickEffects
            (Basic.setup { navAnchors := [{ id := 5, textContent := "Blog" },
                                          { id := 7, textContent := "Home" }] })
            (Basic.Anchor.id { id := 7, textContent := "Home" })) := by
  exact click_output_determined_by_text
    { navAnchors := [{ id := 0, textContent := "Home" }] }
    { navAnchors := [{ id := 5, textContent := "Blog" },
                     { id := 7, textContent := "Home" }] }
    { id := 0, textContent := "Home" } { id := 7, textContent := "Home" }
    (by decide) (by decide) (by decide) (by decide) (by decide)

/-- Claim C8: the wrapper returned by `once(fn)` forwards exactly one call to
`fn` across any number of invocations: the first invocation forwards its own
`this` and arguments, and once the `ran` flag is set no further invocation
forwards anything. -/
theorem once_invokes_fn_exactly_once (α β : Type) (c : StyleGuide.Call α β)
    (cs : List (StyleGuide.Call α β)) :
    (StyleGuide.onceRun false (c :: cs)).2 = [c] ∧
    (StyleGuide.onceRun true cs).2 = [] := by
  constructor
  · rw [StyleGuide.onceRun]
    simp [StyleGuide.onceCall, StyleGuide.onceRun_ran cs]
  · rw [StyleGuide.onceRun_ran cs]

/-- Claim C9 fails as stated: an argument is not always inserted verbatim,
because JavaScript interprets dollar patterns in the replacement string.  At
the concrete input `format('%s', '$$')` the code yields the one-character
string "$" while verbatim insertion of the argument would yield "$$". -/
theorem format_not_verbatim_counterexample :
    StyleGuide.format [['%', 's'], [StyleGuide.dollar, StyleGuide.dollar]]
        = some [StyleGuide.dollar] ∧
    StyleGuide.formatLiteral
        [['%', 's'], [StyleGuide.dollar, StyleGuide.dollar]]
        = some [StyleGuide.dollar, StyleGuide.dollar] ∧
    StyleGuide.format [['%', 's'], [StyleGuide.dollar, StyleGuide.dollar]]
      ≠ StyleGuide.formatLiteral
          [['%', 's'], [StyleGuide.dollar, StyleGuide.dollar]] := by
  exact ⟨by decide, by decide, by decide⟩

/-- Claim C9, amended: provided no argument contains the dollar character,
`format` replaces, left to right, the first remaining occurrence of '%s' with
each subsequent argument inserted verbatim, silently dropping arguments with
no '%s' left (the fold of `replaceFirstLiteral`), and `format` with a single
argument returns it unchanged. -/
theorem format_replaces_percent_s_left_to_right (initial : StyleGuide.JStr)
    (args : List StyleGuide.JStr)
    (h : ∀ a ∈ args, StyleGuide.dollar ∉ a) :
    StyleGuide.format (initial :: args)
      = StyleGuide.formatLiteral (initial :: args) ∧
    StyleGuide.format [initial] = some initial := by
  constructor
  · rw [StyleGuide.format, StyleGuide.formatLiteral,
      StyleGuide.foldl_replacer_no_dollar args initial h]
  · rfl

/-- Witness for the amended C9: two dollar-free arguments fill the template
left to right; the second argument, having no '%s' left, is dropped. -/
theorem format_replaces_percent_s_left_to_right_witness :
    StyleGuide.format [['a', '%', 's'], ['b'], ['c']]
      = StyleGuide.formatLiteral [['a', '%', 's'], ['b'], ['c']] ∧
    StyleGuide.format [['a', '%', 's']] = some ['a', '%', 's'] := by
  exact format_replaces_percent_s_left_to_right
    ['a', '%', 's'] [['b'], ['c']] (by decide)

/-- Claim C10 fails as stated: the counter is a JavaScript number, and the
double increment `foo++` rounds.  At `options.start = 2^53` (a truthy,
representable value) the tie `2^53 + 1` rounds back to `2^53`, so two
successive `uuid()` calls both return `2^53` instead of the claimed strictly
increasing consecutive integers. -/
theorem util_uuid_saturates_at_two_pow_53 :
    (StyleGuide.uuidRun (StyleGuide.util { start := some (2 ^ 53) }) 2).1
        = [(2 : Int) ^ 53, 2 ^ 53] ∧
    (StyleGuide.uuidRun (StyleGuide.util { start := some (2 ^ 53) }) 2).1
        ≠ (List.range 2).map (fun k : Nat => ((2 : Int) ^ 53) + (k : Int)) := by
  exact ⟨by decide, by decide⟩

/-- Claim C10, amended: the counter starts at `options.start` when truthy and
at 0 otherwise; as long as every value the counter takes stays within the
IEEE-754 safe integer range (magnitude at most 2^53), each `uuid` call
returns the current counter and stores its exact successor, so `n` successive
calls return the strictly increasing consecutive integers start, start+1,
...  Outside that range the double increment rounds (at 2^53 the counter
stalls), and non-integer starts are outside the model. -/
theorem util_uuid_counts_consecutively_in_safe_range (o : StyleGuide.Options)
    (n : Nat)
    (hlo : -(2 ^ 53) ≤ StyleGuide.jsOr o.start 0)
    (hhi : StyleGuide.jsOr o.start 0 + n ≤ 2 ^ 53) :
    (StyleGuide.util o).foo
        = (if StyleGuide.truthy o.start then o.start.getD 0 else 0) ∧
    (StyleGuide.uuid (StyleGuide.util o)).1 = (StyleGuide.util o).foo ∧
    (StyleGuide.uuidRun (StyleGuide.util o) n).1
        = (List.range n).map (fun k : Nat => (StyleGuide.util o).foo + (k : Int)) ∧
    List.Chain' (fun x y => y = x + 1)
        (StyleGuide.uuidRun (StyleGuide.util o) n).1 := by
  have hpow : ((2 : Int) ^ 53) = 9007199254740992 := by norm_num
  rw [hpow] at hlo hhi
  refine ⟨?_, rfl, ?_, ?_⟩
  · obtain ⟨os⟩ := o
    cases os <;> rfl
  · exact StyleGuide.uuidRun_outputs_safe n (StyleGuide.jsOr o.start 0) hlo hhi
  · exact StyleGuide.uuidRun_chain_safe n (StyleGuide.jsOr o.start 0) hlo hhi

/-- Witness for the amended C10: starting at the truthy value 5, three calls
return 5, 6, 7. -/
theorem util_uuid_counts_consecutively_in_safe_range_witness :
    (StyleGuide.util { start := some 5 }).foo
        = (if StyleGuide.truthy (StyleGuide.Options.start { start := some 5 })
            then (StyleGuide.Options.start { start := some 5 }).getD 0 else 0) ∧
    (StyleGuide.uuid (StyleGuide.util { start := some 5 })).1
        = (StyleGuide.util { start := some 5 }).foo ∧
    (StyleGuide.uuidRun (StyleGuide.util { start := some 5 }) 3).1
        = (List.range 3).map
            (fun k : Nat => (StyleGuide.util { start := some 5 }).foo + (k : Int)) ∧
    List.Chain' (fun x y => y = x + 1)
        (StyleGuide.uuidRun (StyleGuide.util { start := some 5 }) 3).1 := by
  exact util_uuid_counts_consecutively_in_safe_range { start := some 5 } 3
    (by decide) (by decide)
